import Mathlib

/-!
Verification of the WagerWise recipe-aggregation core (`src/services/recipeService.js`)
against its natural-language specification.

Modelling conventions for the shallow embedding:
* JavaScript numbers are idealised as rationals (`ℚ`); `NaN` is represented
  explicitly either by a dedicated `JsVal.vNaN` constructor or by `Option ℚ`
  (`none` = NaN) at coercion points.  `Number.prototype.toFixed(2)` followed by
  `Number(...)` is modelled as exact decimal rounding (`jsRound2`), matching the
  ECMAScript "pick the larger n" tie rule; binary floating-point noise is
  idealised away.
* Loosely-typed JS fields are modelled by `JsVal` where the code inspects the
  dynamic type (e.g. `typeof v === 'number'`), and by `Option`/plain values where
  the code only uses truthiness and the distinction is extensionally irrelevant
  (e.g. `x || 0` on a numeric field is the identity on `ℚ`).
* The asynchronous collaborators (database cache, external recipe API, price
  API) are modelled as oracle functions; a failed/absent response is `none`,
  matching the code's catch-and-return-null handling.
* JS `Map` objects are modelled either as association lists preserving
  insertion order (where iteration order matters) or as finitely-updated
  functions (where only lookup matters).
* `Array.prototype.sort` (stable since ES2019) is modelled by the stable
  `List.insertionSort`; for a consistent comparator every stable sort produces
  the same list.  A comparator result of `NaN` is treated as "do not swap",
  matching V8.
-/

/-- A dynamically-typed JavaScript value, restricted to the primitive shapes the
modelled code actually inspects. -/
inductive JsVal where
  | vUndefined : JsVal
  | vNull : JsVal
  | vNaN : JsVal
  | vBool : Bool → JsVal
  | vNum : ℚ → JsVal
  | vStr : String → JsVal
  deriving DecidableEq, Repr

/-- JavaScript truthiness of a `JsVal`. -/
def jsTruthy : JsVal → Bool
  | JsVal.vUndefined => false
  | JsVal.vNull => false
  | JsVal.vNaN => false
  | JsVal.vBool b => b
  | JsVal.vNum q => q != 0
  | JsVal.vStr s => s != ""

/-- `a || b` on JS values. -/
def jsOr (a b : JsVal) : JsVal := if jsTruthy a then a else b

/-- JS `String.prototype.trim()` on the character list (leading and trailing
whitespace removed); implemented on `List Char` so that it evaluates inside the
kernel. -/
def jsTrimChars (l : List Char) : List Char :=
  ((l.dropWhile Char.isWhitespace).reverse.dropWhile Char.isWhitespace).reverse

/-- JS `String.prototype.trim()`. -/
def jsTrim (s : String) : String := String.mk (jsTrimChars s.toList)

/-- JS `String.prototype.toLowerCase()` (character-wise lowering). -/
def jsToLower (s : String) : String := String.mk (s.toList.map Char.toLower)

/-- Value of a digit string, most significant digit first. -/
def digitsToNat (l : List Char) : ℕ :=
  l.foldl (fun n c => 10 * n + (c.toNat - 48)) 0

/-- Parse an unsigned decimal literal (`digits`, `digits.digits`, `.digits`),
the fragment of the JS numeric grammar the modelled data can exercise
(exponents, hex and `Infinity` are outside the modelled input space).
`none` models `NaN`. -/
def parseDecCore (l : List Char) : Option ℚ :=
  let intPart := l.takeWhile Char.isDigit
  let rest := l.dropWhile Char.isDigit
  match rest with
  | [] => if intPart.isEmpty then none else some (digitsToNat intPart)
  | '.' :: frac =>
      if frac.all Char.isDigit && !(intPart.isEmpty && frac.isEmpty) then
        some ((digitsToNat intPart : ℚ) + (digitsToNat frac : ℚ) / (10 ^ frac.length))
      else none
  | _ => none

/-- JS `Number(string)` coercion: trimmed empty string is `0`, otherwise an
optionally signed decimal literal; anything else is `NaN` (`none`). -/
def jsParseNumber (s : String) : Option ℚ :=
  match jsTrimChars s.toList with
  | [] => some 0
  | '+' :: rest => parseDecCore rest
  | '-' :: rest => (parseDecCore rest).map Neg.neg
  | l => parseDecCore l

/-- JS `Number(v)` coercion; `none` models `NaN`. -/
def jsToNumber : JsVal → Option ℚ
  | JsVal.vUndefined => none
  | JsVal.vNull => some 0
  | JsVal.vNaN => none
  | JsVal.vBool b => some (if b then 1 else 0)
  | JsVal.vNum q => some q
  | JsVal.vStr s => jsParseNumber s

/-- `Number(x.toFixed(2))`: round to the nearest hundredth, ties picking the
larger value, exactly as ECMAScript's `toFixed` specifies. -/
def jsRound2 (q : ℚ) : ℚ := (round (q * 100) : ℤ) / 100

/-- State machine for the regex `/<\/?[^>]+(>|$)/g` with replacement `' '`:
a `<` followed by at least one non-`>` character opens a tag (replaced by one
space) that runs to the next `>` or to the end of the string; when `inTag` is
true characters are being consumed by the current tag. -/
def stripTagsGo : Bool → List Char → List Char
  | _, [] => []
  | true, c :: cs => if c = '>' then stripTagsGo false cs else stripTagsGo true cs
  | false, c :: cs =>
      if c = '<' then
        match cs with
        | [] => ['<']
        | c2 :: _ =>
            if c2 = '>' then '<' :: stripTagsGo false cs
            else ' ' :: stripTagsGo true cs
      else c :: stripTagsGo false cs

/-- Replace every HTML-tag match by a single space. -/
def stripTagsChars (l : List Char) : List Char := stripTagsGo false l

/-- State machine for the replacement `/\s+/g → ' '` (collapse every
whitespace run to one space); `prevWs` records whether the previous character
belonged to a whitespace run. -/
def collapseWsGo : Bool → List Char → List Char
  | _, [] => []
  | prevWs, c :: cs =>
      if c.isWhitespace then
        if prevWs then collapseWsGo true cs else ' ' :: collapseWsGo true cs
      else c :: collapseWsGo false cs

/-- Collapse every whitespace run to one space. -/
def collapseWsChars (l : List Char) : List Char := collapseWsGo false l

/-- `stripHtmlTags` from `src/utils/strings` (also inlined in `index.js`):
non-strings and the empty string give `''`; otherwise tags become spaces,
whitespace is collapsed and the result is trimmed. -/
def stripHtmlTags : JsVal → String
  | JsVal.vStr s =>
      if s = "" then ""
      else jsTrim (String.mk (collapseWsChars (stripTagsChars s.toList)))
  | _ => ""

/-- A raw external-API recipe object as `normalizeApiRecipe` reads it.  The
spread `...recipeData` carries every other field through unchanged; only the
fields the function reads or writes are modelled. -/
structure RawRecipe where
  id : JsVal
  spoonacular_id : JsVal
  summary : JsVal
  pricePerServing : JsVal
  deriving DecidableEq, Repr

/-- Argument to `normalizeApiRecipe`: `undefined` (which triggers the default
parameter `recipeData = {}`), another non-object value (`null` or a primitive,
all rejected by the `!recipeData || typeof recipeData !== 'object'` guard), or
a recipe-shaped object. -/
inductive NormInput where
  | undefinedArg : NormInput
  | notObject : NormInput
  | obj : RawRecipe → NormInput
  deriving DecidableEq, Repr

/-- The guard of `normalizeApiRecipe`'s price branch:
`pricePerServing !== undefined && pricePerServing !== null`. -/
def jsPresent (v : JsVal) : Bool :=
  !(v == JsVal.vUndefined) && !(v == JsVal.vNull)

/-- The empty object `{}` that the default parameter `recipeData = {}`
substitutes for an `undefined` argument: every field reads as `undefined`. -/
def emptyRecipeObject : RawRecipe :=
  ⟨JsVal.vUndefined, JsVal.vUndefined, JsVal.vUndefined, JsVal.vUndefined⟩

/-- The body of `normalizeApiRecipe` (recipeService.js:13-28) past the
non-object guard: strip the summary's HTML, reconcile the id, and normalise
`pricePerServing` — if present and numerically coercible, divide by 100 and
round to 2 decimals; otherwise `null`. -/
def normalizeRecipeObject (r : RawRecipe) : RawRecipe :=
  let sanitizedSummary := stripHtmlTags r.summary
  let normalizedPrice :=
    if jsPresent r.pricePerServing then
      match jsToNumber r.pricePerServing with
      | some q => JsVal.vNum (jsRound2 (q / 100))
      | none => JsVal.vNull
    else JsVal.vNull
  { r with
      id := jsOr r.id r.spoonacular_id
      summary := JsVal.vStr sanitizedSummary
      pricePerServing := normalizedPrice }

/-- `normalizeApiRecipe` (recipeService.js:8-29): an `undefined` argument is
replaced by `{}` by the default parameter and then normalised like any other
object (yielding a degenerate recipe, not `null`); `null` and non-object
primitives are rejected by the guard; an object is normalised. -/
def normalizeApiRecipe : NormInput → Option RawRecipe
  | NormInput.undefinedArg => some (normalizeRecipeObject emptyRecipeObject)
  | NormInput.notObject => none
  | NormInput.obj r => some (normalizeRecipeObject r)

example : normalizeApiRecipe (NormInput.obj
    ⟨JsVal.vNum 7, JsVal.vNull, JsVal.vNull, JsVal.vNull⟩) =
    some ⟨JsVal.vNum 7, JsVal.vNull, JsVal.vStr "", JsVal.vNull⟩ := by decide

/-- A `{name, amount}` entry of `nutrition.nutrients`. -/
structure Nutrient where
  name : String
  amount : ℚ
  deriving DecidableEq, Repr

/-- The `estimatedCost` object attached to an ingredient.  `value` stays
dynamically typed because `recipeHasIngredientCost` inspects
`typeof costValue === 'number' && !Number.isNaN(costValue)`. -/
structure IngredientCost where
  value : JsVal
  unit : String
  amount : ℚ
  image : String
  deriving DecidableEq, Repr

/-- An entry of `extendedIngredients`.  String fields use `""` for an absent
value and `amount` uses `0` (the code only ever applies truthiness tests and
`|| 0` / `|| ''` defaults to these fields, under which the encodings are
extensionally identical to `undefined`). -/
structure Ingredient where
  id : Int
  name : String
  original : String
  amount : ℚ
  unit : String
  aisle : String
  image : String
  estimatedCost : Option IngredientCost
  deriving DecidableEq, Repr

/-- An entry of a price-breakdown payload's `ingredients` array. -/
structure BreakdownItem where
  name : String
  price : JsVal
  amount : ℚ
  image : String
  deriving DecidableEq, Repr

/-- A `getRecipePriceBreakdown` response body.  `ingredients = none` models a
payload whose `ingredients` is not an array; `totalCost`/`totalCostPerServing`
are `some` exactly when the payload carries a JS number there. -/
structure PriceData where
  ingredients : Option (List BreakdownItem)
  totalCost : Option ℚ
  totalCostPerServing : Option ℚ
  deriving DecidableEq, Repr

/-- The canonical in-memory recipe shape flowing through `getDetailedRecipes`,
`buildGroceryList` and `sortRecipesByPreferences`.  `id = 0` models a falsy id;
`pricePerServing`/`readyInMinutes` keep `Option` because the claims distinguish
a field that is `0` from one that is absent; `healthScore`/`aggregateLikes`
use `0` for absent (only truthiness and `|| 0` are ever applied to them).
`nutrition` models `nutrition?.nutrients`. -/
structure Recipe where
  id : Int
  title : String
  pricePerServing : Option ℚ
  readyInMinutes : Option ℚ
  healthScore : ℚ
  aggregateLikes : ℚ
  nutrition : Option (List Nutrient)
  extendedIngredients : Option (List Ingredient)
  totalIngredientCost : Option ℚ
  totalCostPerServing : Option ℚ
  priceBreakdown : Option PriceData
  deriving DecidableEq, Repr

/-- `typeof v === 'number' && !Number.isNaN(v)`. -/
def isNumberValue : JsVal → Bool
  | JsVal.vNum _ => true
  | _ => false

/-- `recipeHasIngredientCost` (recipeService.js:31-40): true iff the recipe is
truthy, `extendedIngredients` is an array, and some ingredient's
`estimatedCost?.value` is a non-NaN number. -/
def recipeHasIngredientCost : Option Recipe → Bool
  | none => false
  | some recipe =>
      match recipe.extendedIngredients with
      | none => false
      | some ingredients =>
          ingredients.any fun ingredient =>
            match ingredient.estimatedCost with
            | some c => isNumberValue c.value
            | none => false

/-- `Map.prototype.set` on an association list: replace in place, else append
(JS `Map` keeps the original insertion position of an updated key). -/
def assocSet {β : Type} (k : String) (v : β) : List (String × β) → List (String × β)
  | [] => [(k, v)]
  | (k', v') :: rest => if k' = k then (k, v) :: rest else (k', v') :: assocSet k v rest

/-- `Map.prototype.get` on an association list. -/
def assocGet {β : Type} (k : String) : List (String × β) → Option β
  | [] => none
  | (k', v') :: rest => if k' = k then some v' else assocGet k rest

/-- A value of the `name -> {price, amount, image}` map built by
`applyPriceBreakdownToRecipe`. -/
structure PriceMapEntry where
  price : ℚ
  amount : ℚ
  image : String
  deriving DecidableEq, Repr

/-- The `priceMap` construction of `applyPriceBreakdownToRecipe`
(recipeService.js:48-64): key on the trimmed lowercased item name, skip empty
keys and NaN prices. -/
def buildPriceMap (items : List BreakdownItem) : List (String × PriceMapEntry) :=
  items.foldl
    (fun m item =>
      let key := jsToLower (jsTrim item.name)
      if key = "" then m
      else
        match jsToNumber item.price with
        | none => m
        | some numericPrice => assocSet key ⟨numericPrice, item.amount, item.image⟩ m)
    []

/-- The per-ingredient lookup key `(ingredient.name || ingredient.original || '')
.trim().toLowerCase()`. -/
def ingredientKey (ingredient : Ingredient) : String :=
  jsToLower (jsTrim (if ingredient.name ≠ "" then ingredient.name else ingredient.original))

/-- `applyPriceBreakdownToRecipe` (recipeService.js:42-97): attach an
`estimatedCost` to every ingredient whose key appears in the breakdown's price
map, then copy `totalCost`/`totalCostPerServing` when numeric and attach the
raw breakdown.  (The JS `!recipe || !priceData` guard returns the recipe; the
callers modelled here always pass present values, so the guard is dropped, and
the per-element `!ingredient` guard is vacuous on modelled values.) -/
def applyPriceBreakdownToRecipe (recipe : Recipe) (priceData : PriceData) : Recipe :=
  let recipe1 :=
    match recipe.extendedIngredients, priceData.ingredients with
    | some ingredients, some items =>
        let priceMap := buildPriceMap items
        { recipe with
            extendedIngredients := some (ingredients.map fun ingredient =>
              match assocGet (ingredientKey ingredient) priceMap with
              | some b =>
                  { ingredient with
                      estimatedCost := some ⟨JsVal.vNum b.price, "US Cents", b.amount, b.image⟩ }
              | none => ingredient) }
    | _, _ => recipe
  let recipe2 :=
    match priceData.totalCost with
    | some q => { recipe1 with totalIngredientCost := some q }
    | none => recipe1
  let recipe3 :=
    match priceData.totalCostPerServing with
    | some q => { recipe2 with totalCostPerServing := some q }
    | none => recipe2
  { recipe3 with priceBreakdown := some priceData }

/-- Core of `ensureRecipeHasCostData` (recipeService.js:149-167) for a non-null
recipe.  Besides the (possibly enriched) recipe it reports how many external
price-breakdown calls and how many database writes were performed: a recipe
that already carries an ingredient cost is returned untouched with no call and
no write; otherwise the breakdown is fetched (one call) and, when it yields
data, merged and persisted (one write); a failed or empty fetch returns the
recipe unchanged. -/
def ensureCost (priceApi : Int → Option PriceData) (recipe : Recipe) : Recipe × ℕ × ℕ :=
  if recipeHasIngredientCost (some recipe) then (recipe, 0, 0)
  else
    match priceApi recipe.id with
    | some priceData => (applyPriceBreakdownToRecipe recipe priceData, 1, 1)
    | none => (recipe, 1, 0)

/-- `ensureRecipeHasCostData` (recipeService.js:149-167): the JS
`!recipe || recipeHasIngredientCost(recipe)` short-circuit, with the non-null
path delegated to `ensureCost`. -/
def ensureRecipeHasCostData (priceApi : Int → Option PriceData) :
    Option Recipe → Option Recipe × ℕ × ℕ
  | none => (none, 0, 0)
  | some recipe =>
      let res := ensureCost priceApi recipe
      (some res.1, res.2)

/-- The id-list argument of `getDetailedRecipes`: either not an array at all or
a JS array of ids. -/
inductive IdsInput where
  | notArray : IdsInput
  | arr : List Int → IdsInput
  deriving DecidableEq, Repr

/-- `getCachedRecipesMap` (recipeService.js:126-147) as a lookup function: the
`SELECT ... WHERE spoonacular_id IN (ids)` rows restricted to the requested
ids, each row's raw recipe patched with
`id: raw_data.id || row.spoonacular_id`.  The database collaborator is the
oracle `dbCache` (`none` = no row / null `raw_data` / read failure, which the
code all degrade to an absent entry). -/
def cachedMapFor (dbCache : Int → Option Recipe) (ids : List Int) (i : Int) : Option Recipe :=
  if i ∈ ids then
    (dbCache i).map fun r => { r with id := if r.id ≠ 0 then r.id else i }
  else none

/-- One step of the `fetchedRecipes.forEach` loop of `getDetailedRecipes`
(recipeService.js:204-208): insert a fetched recipe under its own `recipe.id`
when the fetch succeeded and the id is truthy. -/
def insertFetched (m : Int → Option Recipe) : Option Recipe → Int → Option Recipe
  | some r => if r.id ≠ 0 then fun j => if j = r.id then some r else m j else m
  | none => m

/-- The recipe map after the cache lookup and the concurrent fetch of the
cache-missing ids (recipeService.js:199-209).  `api` is the
`fetchRecipeFromApi` collaborator; `none` models a fetch that failed (its
`catch` returns `null`). -/
def finalMapFor (dbCache api : Int → Option Recipe) (ids : List Int) : Int → Option Recipe :=
  let cachedRecipes := cachedMapFor dbCache ids
  let missingIds := ids.filter fun i => (cachedRecipes i).isNone
  (missingIds.map api).foldl insertFetched cachedRecipes

/-- `getDetailedRecipes` (recipeService.js:194-227): reject non-arrays and the
empty list, build the cache/fetch map, re-project it in input-id order
dropping unresolved ids, and run the cost enricher over the survivors.  (The
two `.filter(recipe => Boolean(recipe))` passes only drop JS `undefined`
placeholders; the first is the `filterMap`, the second is a no-op on the
modelled non-null values.) -/
def getDetailedRecipes (dbCache api : Int → Option Recipe)
    (priceApi : Int → Option PriceData) : IdsInput → List Recipe
  | IdsInput.notArray => []
  | IdsInput.arr recipeIds =>
      if recipeIds.isEmpty then []
      else
        let fm := finalMapFor dbCache api recipeIds
        let orderedRecipes := (recipeIds.map fm).filterMap fun x => x
        orderedRecipes.map fun recipe => (ensureCost priceApi recipe).1

/-- Resolution of a single id by `getDetailedRecipes`: the final map entry,
cost-enriched.  `none` means the id could be resolved neither from the cache
nor from the external API. -/
def resolveDetailed (dbCache api : Int → Option Recipe)
    (priceApi : Int → Option PriceData) (ids : List Int) (i : Int) : Option Recipe :=
  (finalMapFor dbCache api ids i).map fun recipe => (ensureCost priceApi recipe).1

/-- An extended JS numeric value: a rational, an infinity, or `NaN`. -/
inductive JsN where
  | nan : JsN
  | posInf : JsN
  | negInf : JsN
  | fin : ℚ → JsN
  deriving DecidableEq, Repr

/-- JS addition on extended numbers. -/
def jsAdd : JsN → JsN → JsN
  | JsN.nan, _ => JsN.nan
  | _, JsN.nan => JsN.nan
  | JsN.posInf, JsN.negInf => JsN.nan
  | JsN.negInf, JsN.posInf => JsN.nan
  | JsN.posInf, _ => JsN.posInf
  | _, JsN.posInf => JsN.posInf
  | JsN.negInf, _ => JsN.negInf
  | _, JsN.negInf => JsN.negInf
  | JsN.fin a, JsN.fin b => JsN.fin (a + b)

/-- JS subtraction on extended numbers. -/
def jsSub : JsN → JsN → JsN
  | JsN.nan, _ => JsN.nan
  | _, JsN.nan => JsN.nan
  | JsN.posInf, JsN.posInf => JsN.nan
  | JsN.negInf, JsN.negInf => JsN.nan
  | JsN.posInf, _ => JsN.posInf
  | JsN.negInf, _ => JsN.negInf
  | JsN.fin _, JsN.posInf => JsN.negInf
  | JsN.fin _, JsN.negInf => JsN.posInf
  | JsN.fin a, JsN.fin b => JsN.fin (a - b)

/-- JS unary minus on extended numbers. -/
def jsNeg : JsN → JsN
  | JsN.nan => JsN.nan
  | JsN.posInf => JsN.negInf
  | JsN.negInf => JsN.posInf
  | JsN.fin q => JsN.fin (-q)

/-- `x > 0` on extended numbers (`NaN > 0` is false). -/
def jsGtZero : JsN → Bool
  | JsN.posInf => true
  | JsN.fin q => decide (0 < q)
  | _ => false

/-- `x.toFixed(2)` re-read as a number (infinities and NaN pass through,
matching what `parseFloat` recovers from their rendered strings). -/
def jsToFixed2 : JsN → JsN
  | JsN.fin q => JsN.fin (jsRound2 q)
  | x => x

/-- An entry of the aggregated grocery list.  `estimatedCost` holds the numeric
content of the 2-decimal string the code stores (with `JsN.nan` for the string
`"NaN"`). -/
structure GroceryEntry where
  id : Int
  name : String
  original : String
  amount : ℚ
  unit : String
  aisle : String
  image : String
  estimatedCost : JsN
  recipes : List String
  deriving DecidableEq, Repr

/-- `((ingredient.estimatedCost?.value) || 0) / 100` with full JS coercion:
a falsy value (including `NaN`) falls back to `0`; a truthy non-numeric value
divides to `NaN`. -/
def ingredientCostValue (ingredient : Ingredient) : JsN :=
  let v := match ingredient.estimatedCost with
    | some c => c.value
    | none => JsVal.vUndefined
  let w := if jsTruthy v then v else JsVal.vNum 0
  match jsToNumber w with
  | some q => JsN.fin (q / 100)
  | none => JsN.nan

/-- `parseFloat(existing.estimatedCost) || 0` on a stored cost string. -/
def parsedPreviousCost : JsN → ℚ
  | JsN.fin q => q
  | _ => 0

/-- The trimmed `ingredient.name || ingredient.original || ''`. -/
def resolvedIngredientName (ingredient : Ingredient) : String :=
  jsTrim (if ingredient.name ≠ "" then ingredient.name else ingredient.original)

/-- The body of the inner `forEach` of `buildGroceryList`
(recipeService.js:252-283): skip empty names, accumulate the running total,
and either merge into the existing entry for the key or seed a new one. -/
def groceryStep (title : String) (st : List (String × GroceryEntry) × JsN)
    (ingredient : Ingredient) : List (String × GroceryEntry) × JsN :=
  let resolvedName := resolvedIngredientName ingredient
  if resolvedName = "" then st
  else
    let key := jsToLower resolvedName
    let cost := ingredientCostValue ingredient
    let total := jsAdd st.2 cost
    match assocGet key st.1 with
    | some existing =>
        let merged := { existing with
            amount := existing.amount + ingredient.amount
            recipes := existing.recipes ++ [title] }
        let merged2 :=
          if jsGtZero cost then
            let previousCost := parsedPreviousCost merged.estimatedCost
            let costQ := match cost with
              | JsN.fin q => q
              | _ => 0
            { merged with estimatedCost := JsN.fin (jsRound2 (previousCost + costQ)) }
          else merged
        (assocSet key merged2 st.1, total)
    | none =>
        (assocSet key
          { id := ingredient.id
            name := if ingredient.name ≠ "" then ingredient.name else resolvedName
            original := ingredient.original
            amount := ingredient.amount
            unit := ingredient.unit
            aisle := if ingredient.aisle = "" then "Unknown" else ingredient.aisle
            image := ingredient.image
            estimatedCost := jsToFixed2 cost
            recipes := [title] } st.1, total)

/-- The `groupedByAisle` bucketing (recipeService.js:293-300): a keyed
collection in first-insertion order, each bucket in list order. -/
def groupByAisle (items : List GroceryEntry) : List (String × List GroceryEntry) :=
  items.foldl
    (fun acc item =>
      let aisle := if item.aisle = "" then "Unknown" else item.aisle
      match assocGet aisle acc with
      | some bucket => assocSet aisle (bucket ++ [item]) acc
      | none => assocSet aisle [item] acc)
    []

/-- The result of `buildGroceryList`; `totalEstimatedCost` is the numeric
content of the final `.toFixed(2)` rendering. -/
structure GroceryResult where
  groceryList : List GroceryEntry
  groupedByAisle : List (String × List GroceryEntry)
  totalEstimatedCost : JsN
  deriving DecidableEq, Repr

/-- `buildGroceryList` (recipeService.js:245-307): aggregate all ingredients
of all recipes by lowercased trimmed resolved name, sort the merged entries by
aisle (a stable sort under the `a.aisle < b.aisle ? -1 : ...` comparator, i.e.
by `aisle ≤`), bucket them by aisle, and render the raw running total to two
decimals. -/
def buildGroceryList (recipes : List Recipe) : GroceryResult :=
  let st := recipes.foldl
    (fun st recipe =>
      match recipe.extendedIngredients with
      | none => st
      | some ingredients => ingredients.foldl (groceryStep recipe.title) st)
    ([], JsN.fin 0)
  let groceryList := st.1.map Prod.snd
  let sortedList := List.insertionSort (fun a b => a.aisle ≤ b.aisle) groceryList
  { groceryList := sortedList
    groupedByAisle := groupByAisle sortedList
    totalEstimatedCost := jsToFixed2 st.2 }

/-- The `priority_factors` weights; a missing weight is `0` (both are falsy in
the `factors.price && ...` guards). -/
structure PriorityFactors where
  price : ℚ
  time : ℚ
  calories : ℚ
  health : ℚ
  deriving DecidableEq, Repr

/-- User sort preferences; `""` models an absent `sort_by`/`sort_order`
(the code only applies `|| 'relevance'` / `|| 'asc'` defaults to them). -/
structure Preferences where
  sort_by : String
  sort_order : String
  priority_factors : Option PriorityFactors
  deriving DecidableEq, Repr

/-- `recipe.nutrition?.nutrients.find(n => n.name === 'Calories')`. -/
def caloriesNutrient (recipe : Recipe) : Option Nutrient :=
  match recipe.nutrition with
  | some nutrients => nutrients.find? fun n => n.name == "Calories"
  | none => none

/-- `calculateScore` (recipeService.js:318-342): the weighted relevance score;
a term contributes only when its field and its weight are both truthy. -/
def calculateScore (preferences : Preferences) (recipe : Recipe) : ℚ :=
  let factors := preferences.priority_factors.getD ⟨1, 1, 1, 1⟩
  let s1 := match recipe.pricePerServing with
    | some q => if q ≠ 0 ∧ factors.price ≠ 0 then (100 - q * 10) * factors.price else 0
    | none => 0
  let s2 := match recipe.readyInMinutes with
    | some t => if t ≠ 0 ∧ factors.time ≠ 0 then (100 - t) * factors.time else 0
    | none => 0
  let s3 := match caloriesNutrient recipe with
    | some calories => if factors.calories ≠ 0 then calories.amount / 10 * factors.calories else 0
    | none => 0
  let s4 := if recipe.healthScore ≠ 0 ∧ factors.health ≠ 0 then
      recipe.healthScore * factors.health
    else 0
  s1 + s2 + s3 + s4

/-- `a.pricePerServing || Infinity` as used by the `price` comparator. -/
def priceOrInf (recipe : Recipe) : JsN :=
  match recipe.pricePerServing with
  | some q => if q = 0 then JsN.posInf else JsN.fin q
  | none => JsN.posInf

/-- `a.readyInMinutes || Infinity` as used by the `time` comparator. -/
def timeOrInf (recipe : Recipe) : JsN :=
  match recipe.readyInMinutes with
  | some t => if t = 0 then JsN.posInf else JsN.fin t
  | none => JsN.posInf

/-- `...find(n => n.name === 'Calories')?.amount || 0`. -/
def caloriesOrZero (recipe : Recipe) : ℚ :=
  match caloriesNutrient recipe with
  | some n => n.amount
  | none => 0

/-- The comparator body of `sortRecipesByPreferences` (recipeService.js:344-382)
before the ascending/descending sign flip. -/
def jsComparator (preferences : Preferences) (a b : Recipe) : JsN :=
  let sortBy := if preferences.sort_by = "" then "relevance" else preferences.sort_by
  if sortBy = "price" then jsSub (priceOrInf a) (priceOrInf b)
  else if sortBy = "time" then jsSub (timeOrInf a) (timeOrInf b)
  else if sortBy = "calories" then JsN.fin (caloriesOrZero a - caloriesOrZero b)
  else if sortBy = "health" then JsN.fin (b.healthScore - a.healthScore)
  else if sortBy = "popularity" then JsN.fin (b.aggregateLikes - a.aggregateLikes)
  else JsN.fin (calculateScore preferences b - calculateScore preferences a)

/-- `(preferences.sort_order || 'asc') === 'asc'`. -/
def isAscending (preferences : Preferences) : Bool :=
  (if preferences.sort_order = "" then "asc" else preferences.sort_order) == "asc"

/-- The comparator handed to `Array.prototype.sort`, sign-flipped for
descending order. -/
def orderedCmp (preferences : Preferences) (a b : Recipe) : JsN :=
  if isAscending preferences then jsComparator preferences a b
  else jsNeg (jsComparator preferences a b)

/-- "`a` may stay before `b`" under the JS sort: the comparator does not
demand a swap (a `NaN` comparator value is treated as `0`, as V8 does). -/
def sortKeepsOrder (preferences : Preferences) (a b : Recipe) : Prop :=
  jsGtZero (orderedCmp preferences a b) = false

instance (preferences : Preferences) : DecidableRel (sortKeepsOrder preferences) := by
  intro a b
  unfold sortKeepsOrder
  infer_instance

/-- `sortRecipesByPreferences` (recipeService.js:309-388): empty or missing
input (or missing preferences) is returned unchanged, otherwise a copy of the
list is stably sorted under the preference comparator. -/
def sortRecipesByPreferences (recipes : List Recipe) (preferences : Option Preferences) :
    List Recipe :=
  if recipes.isEmpty then recipes
  else
    match preferences with
    | none => recipes
    | some p => List.insertionSort (sortKeepsOrder p) recipes

/-- Deduplication by recipe id in encounter order (first occurrence wins),
carrying the set of already-seen ids. -/
def dedupByIdAux (seen : List Int) : List Recipe → List Recipe
  | [] => []
  | r :: rest =>
      if r.id ∈ seen then dedupByIdAux seen rest
      else r :: dedupByIdAux (r.id :: seen) rest

/-- Deduplication by recipe id in encounter order. -/
def dedupById (recipes : List Recipe) : List Recipe := dedupByIdAux [] recipes

/-- Modelled from the spec: `searchWithFallback` (spec §4.6, "Fallback Search
Orchestrator") and the Filter Engine it invokes are described by the
specification but are not present under the repository sources that were
provided, so this definition follows the spec's words.  Collaborators are
abstracted: `passesFilter` is the Filter Engine applied to one recipe, `localStore`
is the Local Cache Store's `searchByFilters` taking the fetch cap,
`apiSearch` is the external search endpoint taking the requested hit count
(already normalized and persisted), and `resolveDetails` is the Detail
Resolver pass over the returned hits.  The algorithm: cap local loading at
`min(number*3, 90)`, filter and deduplicate the local hits, and only when the
accumulated count falls short of `number` issue one external request sized
`max(needed*2, needed)` and at least 5, append the unseen filtered matches and
truncate to `number`.  The second component lists the sizes of the external
search requests issued. -/
def searchWithFallback (passesFilter : Recipe → Bool) (localStore : ℕ → List Recipe)
    (apiSearch : ℕ → List Recipe) (resolveDetails : List Recipe → List Recipe)
    (number : ℕ) : List Recipe × List ℕ :=
  let cap := min (number * 3) 90
  let localMatches := dedupById ((localStore cap).filter passesFilter)
  if number ≤ localMatches.length then (localMatches.take number, [])
  else
    let needed := number - localMatches.length
    let request := max (max (needed * 2) needed) 5
    let hits := apiSearch request
    let detailed := resolveDetails hits
    let apiMatches := detailed.filter passesFilter
    ((dedupById (localMatches ++ apiMatches)).take number, [request])

theorem getDetailedRecipes_eq_filterMap (dbCache api : Int → Option Recipe)
    (priceApi : Int → Option PriceData) (ids : List Int) :
    getDetailedRecipes dbCache api priceApi (IdsInput.arr ids) =
      ids.filterMap (resolveDetailed dbCache api priceApi ids) := by
  by_cases hids : ids.isEmpty
  · rw [List.isEmpty_iff] at hids
    subst hids
    rfl
  · simp only [getDetailedRecipes]
    rw [if_neg hids]
    rw [List.filterMap_map, Function.comp_def]
    simp only [List.map_filterMap]
    rfl

/-- The effective ascending price key of the `price` comparator: a recipe with
a missing (or falsy `0`) `pricePerServing` is keyed `⊤` (`Infinity`). -/
def priceKey (recipe : Recipe) : WithTop ℚ :=
  match recipe.pricePerServing with
  | some q => if q = 0 then ⊤ else (q : WithTop ℚ)
  | none => ⊤

/-- The effective ascending time key of the `time` comparator. -/
def timeKey (recipe : Recipe) : WithTop ℚ :=
  match recipe.readyInMinutes with
  | some t => if t = 0 then ⊤ else (t : WithTop ℚ)
  | none => ⊤

/-- A minimal recipe with the given id and price (all other fields empty),
used as concrete test data. -/
def plainRecipe (i : Int) (price : Option ℚ) : Recipe :=
  ⟨i, "R", price, none, 0, 0, none, none, none, none, none⟩

/-- A recipe carrying only a title and ingredients, used as concrete grocery
test data. -/
def groceryRecipe (title : String) (ingredients : List Ingredient) : Recipe :=
  ⟨1, title, none, none, 0, 0, none, some ingredients, none, none, none⟩

/-- An onion ingredient with the given amount. -/
def onionIngredient (amount : ℚ) : Ingredient :=
  ⟨11, "Onion", "", amount, "", "produce", "", none⟩

/-- A recipe whose single ingredient already carries a numeric estimated cost. -/
def costedRecipe : Recipe :=
  ⟨1, "Costed", none, none, 0, 0, none,
    some [⟨11, "Onion", "", 2, "", "produce", "", some ⟨JsVal.vNum 5, "US Cents", 1, ""⟩⟩],
    none, none, none⟩

/-- A price-breakdown payload used to show that no call is made even when data
would be available. -/
def availablePriceData : PriceData := ⟨some [⟨"onion", JsVal.vNum 3, 1, ""⟩], some 3, some 1⟩

/-- A price oracle that always has data (used to witness that the skip path
never consults it). -/
def availablePriceApi : Int → Option PriceData := fun _ => some availablePriceData

/-- A database cache containing exactly the recipe with id 1. -/
def cacheWithOne : Int → Option Recipe :=
  fun i => if i = 1 then some (plainRecipe 1 none) else none

/-- An external API whose every fetch fails. -/
def failingApi : Int → Option Recipe := fun _ => none

/-- A price oracle with no data. -/
def emptyPriceApi : Int → Option PriceData := fun _ => none

/-- Five distinct matching recipes pre-seeding the local store. -/
def fiveLocalRecipes : List Recipe :=
  [plainRecipe 1 (some 1), plainRecipe 2 (some 2), plainRecipe 3 (some 3),
    plainRecipe 4 (some 4), plainRecipe 5 (some 5)]

/-- A raw recipe whose `pricePerServing` is the number 100 (minor units). -/
def rawPrice100 : RawRecipe := ⟨JsVal.vNum 7, JsVal.vNull, JsVal.vNull, JsVal.vNum 100⟩

/-- A raw recipe whose `pricePerServing` is the number 250 (minor units). -/
def rawPrice250 : RawRecipe := ⟨JsVal.vNum 7, JsVal.vNull, JsVal.vNull, JsVal.vNum 250⟩

/-- A raw recipe with every modelled field `null`. -/
def rawAllNull : RawRecipe := ⟨JsVal.vNull, JsVal.vNull, JsVal.vNull, JsVal.vNull⟩

/-- C2: the claim that `normalizeApiRecipe` is price-idempotent fails on the
code: for a recipe whose raw `pricePerServing` is the number 100, one
normalization yields price 1, but a second normalization divides by 100 again
and yields 0.01. -/
theorem c2_counterexample :
    ¬ (((normalizeApiRecipe (NormInput.obj rawPrice100)).bind
          fun r => normalizeApiRecipe (NormInput.obj r)).map RawRecipe.pricePerServing =
        (normalizeApiRecipe (NormInput.obj rawPrice100)).map RawRecipe.pricePerServing) := by
  simp [rawPrice100, normalizeApiRecipe, normalizeRecipeObject, jsPresent, jsToNumber,
    jsRound2, stripHtmlTags, jsOr, jsTruthy]

/-- C2 (amended): re-normalizing an already-normalized recipe is not
price-idempotent in general: a `null` normalized price stays `null`, but a
numeric normalized price `q` is divided by 100 and re-rounded — so idempotence
holds exactly when the normalized price is `null` or `0`. -/
theorem c2_renormalize_divides_again (r r' : RawRecipe)
    (hnorm : normalizeApiRecipe (NormInput.obj r) = some r') :
    (r'.pricePerServing = JsVal.vNull →
      (normalizeApiRecipe (NormInput.obj r')).map RawRecipe.pricePerServing =
        some JsVal.vNull) ∧
    (∀ q : ℚ, r'.pricePerServing = JsVal.vNum q →
      (normalizeApiRecipe (NormInput.obj r')).map RawRecipe.pricePerServing =
        some (JsVal.vNum (jsRound2 (q / 100)))) ∧
    (r'.pricePerServing = JsVal.vNum 0 →
      (normalizeApiRecipe (NormInput.obj r')).map RawRecipe.pricePerServing =
        some (JsVal.vNum 0)) := by
  refine ⟨fun h0 => ?_, fun q hq => ?_, fun h0 => ?_⟩
  · simp [normalizeApiRecipe, normalizeRecipeObject, jsPresent, h0]
  · simp [normalizeApiRecipe, normalizeRecipeObject, jsPresent, hq, jsToNumber]
  · simp [normalizeApiRecipe, normalizeRecipeObject, jsPresent, h0, jsToNumber, jsRound2]

/-- C2 (amended) at a concrete input: a recipe normalizing to a `null` price
re-normalizes to the same `null` price. -/
theorem c2_witness :
    normalizeApiRecipe (NormInput.obj rawAllNull) =
      some ⟨JsVal.vNull, JsVal.vNull, JsVal.vStr "", JsVal.vNull⟩ ∧
    (normalizeApiRecipe
        (NormInput.obj ⟨JsVal.vNull, JsVal.vNull, JsVal.vStr "", JsVal.vNull⟩)).map
      RawRecipe.pricePerServing = some JsVal.vNull :=
  ⟨by decide,
    (c2_renormalize_divides_again rawAllNull _ (by decide)).1 (by decide)⟩

/-- C5: a recipe that already has at least one ingredient with a numeric
(non-NaN) `estimatedCost.value` is returned unchanged by
`ensureRecipeHasCostData`, with zero external price-breakdown calls and zero
database writes. -/
theorem c5_cost_enrichment_skip (priceApi : Int → Option PriceData) (r : Recipe)
    (hcost : recipeHasIngredientCost (some r) = true) :
    ensureRecipeHasCostData priceApi (some r) = (some r, 0, 0) := by
  simp only [ensureRecipeHasCostData, ensureCost, hcost, if_true]

/-- C5 at a concrete input: a recipe with a costed onion is skipped even though
the price oracle has data to offer. -/
theorem c5_witness :
    recipeHasIngredientCost (some costedRecipe) = true ∧
    ensureRecipeHasCostData availablePriceApi (some costedRecipe) = (some costedRecipe, 0, 0) :=
  ⟨by decide, c5_cost_enrichment_skip availablePriceApi costedRecipe (by decide)⟩

/-- C6: the claim that every non-object input returns `null` fails on the
code: the default parameter `recipeData = {}` turns an `undefined` argument
into the empty object, which passes the object guard and normalizes to a
degenerate recipe object (undefined id, empty summary, `null` price) rather
than to `null`. -/
theorem c6_counterexample :
    normalizeApiRecipe NormInput.undefinedArg =
      some ⟨JsVal.vUndefined, JsVal.vUndefined, JsVal.vStr "", JsVal.vNull⟩ ∧
    normalizeApiRecipe NormInput.undefinedArg ≠ none := by
  exact ⟨by decide, by decide⟩

/-- C6 (amended): `normalizeApiRecipe` is a total function (never throws);
every non-object input other than `undefined` returns `null`, while an
`undefined` argument — replaced by `{}` by the default parameter — returns a
degenerate normalized object whose `pricePerServing` is `null`; and on
objects it maps a present, numerically-coercible `pricePerServing` to that
number divided by 100 and rounded to 2 decimals, and an absent
(`undefined`/`null`) or unparseable one to `null`. -/
theorem c6_normalize_price_contract :
    normalizeApiRecipe NormInput.notObject = none ∧
    (normalizeApiRecipe NormInput.undefinedArg).map RawRecipe.pricePerServing =
      some JsVal.vNull ∧
    (∀ r : RawRecipe, ∀ q : ℚ, jsPresent r.pricePerServing = true →
      jsToNumber r.pricePerServing = some q →
      (normalizeApiRecipe (NormInput.obj r)).map RawRecipe.pricePerServing =
        some (JsVal.vNum (jsRound2 (q / 100)))) ∧
    (∀ r : RawRecipe,
      jsPresent r.pricePerServing = false ∨ jsToNumber r.pricePerServing = none →
      (normalizeApiRecipe (NormInput.obj r)).map RawRecipe.pricePerServing =
        some JsVal.vNull) := by
  refine ⟨rfl, by decide, fun r q hp hn => ?_, fun r hr => ?_⟩
  · simp [normalizeApiRecipe, normalizeRecipeObject, hp, hn]
  · rcases hr with hp | hn
    · simp [normalizeApiRecipe, normalizeRecipeObject, hp]
    · by_cases hp : jsPresent r.pricePerServing
      · simp [normalizeApiRecipe, normalizeRecipeObject, hp, hn]
      · simp [normalizeApiRecipe, normalizeRecipeObject, hp]

/-- C6 at a concrete input: a raw price of 250 minor units is present,
coerces to 250, and normalizes to `jsRound2 (250 / 100)`. -/
theorem c6_witness :
    jsPresent rawPrice250.pricePerServing = true ∧
    jsToNumber rawPrice250.pricePerServing = some 250 ∧
    (normalizeApiRecipe (NormInput.obj rawPrice250)).map RawRecipe.pricePerServing =
      some (JsVal.vNum (jsRound2 (250 / 100))) :=
  ⟨by decide, by decide,
    c6_normalize_price_contract.2.2.1 rawPrice250 250 (by decide) (by decide)⟩

/-- C3: `getDetailedRecipes` returns `[]` for a non-array and for an empty id
list, and otherwise returns exactly the per-id resolutions in input-id order,
omitting only the ids that resolve to nothing. -/
theorem c3_detail_resolver_order (dbCache api : Int → Option Recipe)
    (priceApi : Int → Option PriceData) :
    getDetailedRecipes dbCache api priceApi IdsInput.notArray = [] ∧
    getDetailedRecipes dbCache api priceApi (IdsInput.arr []) = [] ∧
    ∀ ids : List Int,
      getDetailedRecipes dbCache api priceApi (IdsInput.arr ids) =
        ids.filterMap (resolveDetailed dbCache api priceApi ids) :=
  ⟨rfl, rfl, getDetailedRecipes_eq_filterMap dbCache api priceApi⟩

theorem count_le_count_filterMap {α β : Type} [DecidableEq α] [DecidableEq β]
    (f : α → Option β) (i : α) (r : β) (hf : f i = some r) :
    ∀ l : List α, l.count i ≤ (l.filterMap f).count r := by
  intro l
  induction l with
  | nil => simp
  | cons x xs ih =>
    rw [List.filterMap_cons]
    by_cases hx : x = i
    · subst hx
      rw [hf]
      simp only [List.count_cons, beq_self_eq_true, if_true]
      omega
    · have hxi : (x == i) = false := by
        rw [beq_eq_false_iff_ne]
        exact hx
      rcases hfx : f x with _ | b
      · simpa [List.count_cons, hxi] using ih
      · simp only [List.count_cons, hxi, if_false, Nat.add_zero]
        exact le_trans ih (Nat.le_add_right _ _)

/-- C9: `getDetailedRecipes` performs no input deduplication — every occurrence
of an id that resolves contributes its own copy of the resolved recipe to the
output, so the k-fold repetition of an id yields at least k occurrences of its
recipe. -/
theorem c9_duplicate_ids_kept (dbCache api : Int → Option Recipe)
    (priceApi : Int → Option PriceData) (ids : List Int) (i : Int) (r : Recipe)
    (hres : resolveDetailed dbCache api priceApi ids i = some r) :
    ids.count i ≤ (getDetailedRecipes dbCache api priceApi (IdsInput.arr ids)).count r := by
  rw [getDetailedRecipes_eq_filterMap]
  exact count_le_count_filterMap _ i r hres ids

/-- C9 at a concrete input: id 1 requested three times against a cache holding
it resolves to three copies of the same recipe. -/
theorem c9_witness :
    resolveDetailed cacheWithOne failingApi emptyPriceApi [1, 1, 1] 1 =
      some (plainRecipe 1 none) ∧
    ([1, 1, 1] : List Int).count 1 ≤
      (getDetailedRecipes cacheWithOne failingApi emptyPriceApi
          (IdsInput.arr [1, 1, 1])).count (plainRecipe 1 none) :=
  ⟨by decide,
    c9_duplicate_ids_kept cacheWithOne failingApi emptyPriceApi [1, 1, 1] 1
      (plainRecipe 1 none) (by decide)⟩

theorem cachedMapFor_filter_ne (dbCache : Int → Option Recipe) (ids : List Int)
    (i0 : Int) (hdb : dbCache i0 = none) :
    cachedMapFor dbCache (ids.filter fun j => j != i0) = cachedMapFor dbCache ids := by
  funext j
  unfold cachedMapFor
  by_cases hj : j = i0
  · subst hj
    rw [hdb]
    simp
  · simp [List.mem_filter, hj]

theorem foldl_insertFetched_filter (api : Int → Option Recipe) (i0 : Int)
    (hapi : api i0 = none) :
    ∀ (l : List Int) (m : Int → Option Recipe),
      (((l.filter fun j => j != i0).map api).foldl insertFetched m) =
        ((l.map api).foldl insertFetched m) := by
  intro l
  induction l with
  | nil => intro m; rfl
  | cons x xs ih =>
    intro m
    by_cases hx : x = i0
    · subst hx
      rw [List.filter_cons_of_neg (by simp), List.map_cons, List.foldl_cons, hapi]
      exact ih m
    · rw [List.filter_cons_of_pos (by simp [hx]), List.map_cons, List.map_cons,
        List.foldl_cons, List.foldl_cons]
      exact ih _

theorem foldl_insertFetched_none (i0 : Int) :
    ∀ (l : List (Option Recipe)) (m : Int → Option Recipe), m i0 = none →
      (∀ o ∈ l, ∀ r : Recipe, o = some r → r.id ≠ i0) →
      (l.foldl insertFetched m) i0 = none := by
  intro l
  induction l with
  | nil => intro m hm _; exact hm
  | cons o os ih =>
    intro m hm hl
    rw [List.foldl_cons]
    refine ih _ ?_ fun o' ho' => hl o' (List.mem_cons_of_mem _ ho')
    rcases o with _ | r
    · exact hm
    · have hr : r.id ≠ i0 := hl (some r) (List.mem_cons_self _ _) r rfl
      show insertFetched m (some r) i0 = none
      simp only [insertFetched]
      by_cases hid : r.id ≠ 0
      · rw [if_pos hid]
        show (if i0 = r.id then some r else m i0) = none
        rw [if_neg fun h => hr h.symm]
        exact hm
      · rw [if_neg hid]
        exact hm

theorem finalMapFor_none (dbCache api : Int → Option Recipe) (ids : List Int)
    (i0 : Int) (hdb : dbCache i0 = none) (hapi : api i0 = none)
    (hcons : ∀ i r, api i = some r → r.id = i) :
    finalMapFor dbCache api ids i0 = none := by
  unfold finalMapFor
  refine foldl_insertFetched_none i0 _ _ ?_ ?_
  · unfold cachedMapFor
    simp [hdb]
  · intro o ho r hor
    rcases List.mem_map.mp ho with ⟨i, _, rfl⟩
    rw [hcons i r hor]
    intro hii
    subst hii
    rw [hapi] at hor
    exact Option.noConfusion hor

theorem finalMapFor_filter_ne (dbCache api : Int → Option Recipe) (ids : List Int)
    (i0 : Int) (hdb : dbCache i0 = none) (hapi : api i0 = none) :
    finalMapFor dbCache api (ids.filter fun j => j != i0) = finalMapFor dbCache api ids := by
  unfold finalMapFor
  rw [cachedMapFor_filter_ne dbCache ids i0 hdb]
  dsimp only
  rw [List.filter_filter]
  have hcomm :
      ids.filter (fun a => ((cachedMapFor dbCache ids a).isNone && (a != i0) : Bool)) =
        ids.filter (fun a => ((a != i0) && (cachedMapFor dbCache ids a).isNone : Bool)) :=
    List.filter_congr fun a _ => by rw [Bool.and_comm]
  rw [hcomm, ← List.filter_filter]
  exact foldl_insertFetched_filter api i0 hapi _ _

theorem filterMap_filter_ne {β : Type} (f : Int → Option β) (i0 : Int)
    (hf : f i0 = none) :
    ∀ l : List Int, ((l.filter fun j => j != i0).filterMap f) = l.filterMap f := by
  intro l
  induction l with
  | nil => rfl
  | cons x xs ih =>
    by_cases hx : x = i0
    · subst hx
      rw [List.filter_cons_of_neg (by simp), List.filterMap_cons, hf]
      exact ih
    · rw [List.filter_cons_of_pos (by simp [hx]), List.filterMap_cons, List.filterMap_cons]
      rw [ih]

/-- C4: within one `getDetailedRecipes` batch, the failure of the external API
for a single uncached id (`fetchRecipeFromApi` yielding `null`) never aborts
the call: the batch result is exactly the result of the same batch with that
id removed, and the failed id itself resolves to nothing.  (`hcons` states
that a successful fetch returns a recipe carrying the requested id.) -/
theorem c4_single_failure_degrades (dbCache api : Int → Option Recipe)
    (priceApi : Int → Option PriceData) (ids : List Int) (i0 : Int)
    (hdb : dbCache i0 = none) (hapi : api i0 = none)
    (hcons : ∀ i r, api i = some r → r.id = i) :
    resolveDetailed dbCache api priceApi ids i0 = none ∧
    getDetailedRecipes dbCache api priceApi (IdsInput.arr ids) =
      getDetailedRecipes dbCache api priceApi
        (IdsInput.arr (ids.filter fun j => j != i0)) := by
  have hnone : finalMapFor dbCache api ids i0 = none :=
    finalMapFor_none dbCache api ids i0 hdb hapi hcons
  constructor
  · unfold resolveDetailed
    rw [hnone]
    rfl
  · rw [getDetailedRecipes_eq_filterMap, getDetailedRecipes_eq_filterMap]
    unfold resolveDetailed
    rw [finalMapFor_filter_ne dbCache api ids i0 hdb hapi]
    rw [filterMap_filter_ne _ i0 (by rw [hnone]; rfl) ids]

/-- C4 at a concrete input: with id 1 cached and the external API failing on
the uncached id 2, the batch `[1, 2]` degrades to the batch `[1]` and id 2
resolves to nothing. -/
theorem c4_witness :
    resolveDetailed cacheWithOne failingApi emptyPriceApi [1, 2] 2 = none ∧
    getDetailedRecipes cacheWithOne failingApi emptyPriceApi (IdsInput.arr [1, 2]) =
      getDetailedRecipes cacheWithOne failingApi emptyPriceApi
        (IdsInput.arr (([1, 2] : List Int).filter fun j => j != 2)) :=
  c4_single_failure_degrades cacheWithOne failingApi emptyPriceApi [1, 2] 2
    (by decide) rfl (fun i r h => Option.noConfusion h)

theorem gtZero_sub_price_iff (a b : Recipe) :
    (jsGtZero (jsSub (priceOrInf a) (priceOrInf b)) = false) ↔ priceKey a ≤ priceKey b := by
  unfold priceOrInf priceKey
  rcases a.pricePerServing with _ | qa <;> rcases b.pricePerServing with _ | qb
  · simp [jsSub, jsGtZero]
  · by_cases hqb : qb = 0
    · simp [hqb, jsSub, jsGtZero]
    · simp [hqb, jsSub, jsGtZero, top_le_iff]
  · by_cases hqa : qa = 0
    · simp [hqa, jsSub, jsGtZero]
    · simp [hqa, jsSub, jsGtZero, le_top]
  · by_cases hqa : qa = 0 <;> by_cases hqb : qb = 0
    · simp [hqa, hqb, jsSub, jsGtZero]
    · simp [hqa, hqb, jsSub, jsGtZero, top_le_iff]
    · simp [hqa, hqb, jsSub, jsGtZero, le_top]
    · simp [hqa, hqb, jsSub, jsGtZero, decide_eq_false_iff_not, not_lt, sub_nonpos,
        WithTop.coe_le_coe]

theorem gtZero_sub_time_iff (a b : Recipe) :
    (jsGtZero (jsSub (timeOrInf a) (timeOrInf b)) = false) ↔ timeKey a ≤ timeKey b := by
  unfold timeOrInf timeKey
  rcases a.readyInMinutes with _ | qa <;> rcases b.readyInMinutes with _ | qb
  · simp [jsSub, jsGtZero]
  · by_cases hqb : qb = 0
    · simp [hqb, jsSub, jsGtZero]
    · simp [hqb, jsSub, jsGtZero, top_le_iff]
  · by_cases hqa : qa = 0
    · simp [hqa, jsSub, jsGtZero]
    · simp [hqa, jsSub, jsGtZero, le_top]
  · by_cases hqa : qa = 0 <;> by_cases hqb : qb = 0
    · simp [hqa, hqb, jsSub, jsGtZero]
    · simp [hqa, hqb, jsSub, jsGtZero, top_le_iff]
    · simp [hqa, hqb, jsSub, jsGtZero, le_top]
    · simp [hqa, hqb, jsSub, jsGtZero, decide_eq_false_iff_not, not_lt, sub_nonpos,
        WithTop.coe_le_coe]

theorem sortKeepsOrder_price_asc_iff (pf : Option PriorityFactors) (a b : Recipe) :
    sortKeepsOrder ⟨"price", "asc", pf⟩ a b ↔ priceKey a ≤ priceKey b := by
  unfold sortKeepsOrder orderedCmp isAscending jsComparator
  simp only [Preferences.sort_by, Preferences.sort_order]
  norm_num
  exact gtZero_sub_price_iff a b

theorem sortKeepsOrder_time_asc_iff (pf : Option PriorityFactors) (a b : Recipe) :
    sortKeepsOrder ⟨"time", "asc", pf⟩ a b ↔ timeKey a ≤ timeKey b := by
  unfold sortKeepsOrder orderedCmp isAscending jsComparator
  simp only [Preferences.sort_by, Preferences.sort_order]
  norm_num
  exact gtZero_sub_time_iff a b

theorem pairwise_sorted_price_asc (pf : Option PriorityFactors) (l : List Recipe) :
    (sortRecipesByPreferences l (some ⟨"price", "asc", pf⟩)).Pairwise
      (fun a b => priceKey a ≤ priceKey b) := by
  unfold sortRecipesByPreferences
  by_cases hl : l.isEmpty
  · rw [if_pos hl]
    rw [List.isEmpty_iff] at hl
    subst hl
    exact List.Pairwise.nil
  · rw [if_neg hl]
    haveI : IsTotal Recipe (sortKeepsOrder ⟨"price", "asc", pf⟩) :=
      ⟨fun a b => by
        rw [sortKeepsOrder_price_asc_iff, sortKeepsOrder_price_asc_iff]
        exact le_total _ _⟩
    haveI : IsTrans Recipe (sortKeepsOrder ⟨"price", "asc", pf⟩) :=
      ⟨fun a b c hab hbc =>
        (sortKeepsOrder_price_asc_iff pf a c).2
          (le_trans ((sortKeepsOrder_price_asc_iff pf a b).1 hab)
            ((sortKeepsOrder_price_asc_iff pf b c).1 hbc))⟩
    exact (List.sorted_insertionSort _ l).imp
      fun hab => (sortKeepsOrder_price_asc_iff pf _ _).1 hab

theorem pairwise_sorted_time_asc (pf : Option PriorityFactors) (l : List Recipe) :
    (sortRecipesByPreferences l (some ⟨"time", "asc", pf⟩)).Pairwise
      (fun a b => timeKey a ≤ timeKey b) := by
  unfold sortRecipesByPreferences
  by_cases hl : l.isEmpty
  · rw [if_pos hl]
    rw [List.isEmpty_iff] at hl
    subst hl
    exact List.Pairwise.nil
  · rw [if_neg hl]
    haveI : IsTotal Recipe (sortKeepsOrder ⟨"time", "asc", pf⟩) :=
      ⟨fun a b => by
        rw [sortKeepsOrder_time_asc_iff, sortKeepsOrder_time_asc_iff]
        exact le_total _ _⟩
    haveI : IsTrans Recipe (sortKeepsOrder ⟨"time", "asc", pf⟩) :=
      ⟨fun a b c hab hbc =>
        (sortKeepsOrder_time_asc_iff pf a c).2
          (le_trans ((sortKeepsOrder_time_asc_iff pf a b).1 hab)
            ((sortKeepsOrder_time_asc_iff pf b c).1 hbc))⟩
    exact (List.sorted_insertionSort _ l).imp
      fun hab => (sortKeepsOrder_time_asc_iff pf _ _).1 hab

/-- C7: the claim as stated fails on the code: a recipe with `pricePerServing`
equal to `0` has a price, yet `0 || Infinity` makes the comparator treat it as
`Infinity`, so sorting `[price 5, price 0]` ascending leaves the zero-priced
recipe last and the literal `pricePerServing` sequence `5, 0` is decreasing. -/
theorem c7_counterexample :
    ¬ ((sortRecipesByPreferences [plainRecipe 1 (some 5), plainRecipe 2 (some 0)]
          (some ⟨"price", "asc", none⟩)).Pairwise fun a b =>
        (∀ qa qb : ℚ, a.pricePerServing = some qa → b.pricePerServing = some qb → qa ≤ qb) ∧
        (a.pricePerServing = none → b.pricePerServing = none)) := by
  intro h
  have hsort : sortRecipesByPreferences [plainRecipe 1 (some 5), plainRecipe 2 (some 0)]
      (some ⟨"price", "asc", none⟩) = [plainRecipe 1 (some 5), plainRecipe 2 (some 0)] := by
    decide
  rw [hsort] at h
  rcases List.pairwise_cons.mp h with ⟨h1, _⟩
  have h50 := (h1 _ (List.mem_cons_self _ _)).1 5 0 rfl rfl
  norm_num at h50

/-- C7 (amended): under `{sort_by: "price", sort_order: "asc"}` the output is a
permutation of the input that is non-decreasing in the effective price key —
i.e. non-decreasing in `pricePerServing` over the recipes whose price is
truthy (non-null and non-zero), with every recipe whose price is missing or
`0` placed after all of them. -/
theorem c7_price_sort_amended (recipes : List Recipe) (pf : Option PriorityFactors) :
    ((sortRecipesByPreferences recipes (some ⟨"price", "asc", pf⟩)).Pairwise
      fun a b => priceKey a ≤ priceKey b) ∧
    (sortRecipesByPreferences recipes (some ⟨"price", "asc", pf⟩)).Perm recipes := by
  refine ⟨pairwise_sorted_price_asc pf recipes, ?_⟩
  unfold sortRecipesByPreferences
  by_cases hl : recipes.isEmpty
  · rw [if_pos hl]
  · rw [if_neg hl]
    exact List.perm_insertionSort _ recipes

theorem priceOrInf_update_zero (r : Recipe) :
    priceOrInf { r with pricePerServing := some 0 } = JsN.posInf ∧
    priceOrInf { r with pricePerServing := none } = JsN.posInf := by
  constructor <;> simp [priceOrInf]

theorem timeOrInf_update_zero (r : Recipe) :
    timeOrInf { r with readyInMinutes := some 0 } = JsN.posInf ∧
    timeOrInf { r with readyInMinutes := none } = JsN.posInf := by
  constructor <;> simp [timeOrInf]

theorem calculateScore_price_update_zero (p : Preferences) (r : Recipe) :
    calculateScore p { r with pricePerServing := some 0 } =
      calculateScore p { r with pricePerServing := none } := by
  simp [calculateScore, caloriesNutrient]

theorem calculateScore_time_update_zero (p : Preferences) (r : Recipe) :
    calculateScore p { r with readyInMinutes := some 0 } =
      calculateScore p { r with readyInMinutes := none } := by
  simp [calculateScore, caloriesNutrient]

theorem jsComparator_price_update_zero (p : Preferences) (r b : Recipe) :
    jsComparator p { r with pricePerServing := some 0 } b =
      jsComparator p { r with pricePerServing := none } b ∧
    jsComparator p b { r with pricePerServing := some 0 } =
      jsComparator p b { r with pricePerServing := none } := by
  unfold jsComparator
  constructor <;>
    split_ifs <;>
      simp [priceOrInf, timeOrInf, caloriesOrZero, caloriesNutrient,
        calculateScore_price_update_zero]

theorem jsComparator_time_update_zero (p : Preferences) (r b : Recipe) :
    jsComparator p { r with readyInMinutes := some 0 } b =
      jsComparator p { r with readyInMinutes := none } b ∧
    jsComparator p b { r with readyInMinutes := some 0 } =
      jsComparator p b { r with readyInMinutes := none } := by
  unfold jsComparator
  constructor <;>
    split_ifs <;>
      simp [priceOrInf, timeOrInf, caloriesOrZero, caloriesNutrient,
        calculateScore_time_update_zero]

/-- C10: every falsy field value is treated as missing by the preference
sorter: a `pricePerServing` (resp. `readyInMinutes`) equal to `0` is keyed
`Infinity` exactly like an absent field, the comparator cannot distinguish the
two under any preferences, ascending price/time sorts place such recipes after
every recipe with a truthy key, and the relevance score of a zero-valued
price/time field contributes `0`, exactly like an absent one. -/
theorem c10_falsy_fields_sort_as_missing :
    (∀ r : Recipe,
      priceOrInf { r with pricePerServing := some 0 } = JsN.posInf ∧
      priceOrInf { r with pricePerServing := none } = JsN.posInf ∧
      timeOrInf { r with readyInMinutes := some 0 } = JsN.posInf ∧
      timeOrInf { r with readyInMinutes := none } = JsN.posInf) ∧
    (∀ (p : Preferences) (r b : Recipe),
      jsComparator p { r with pricePerServing := some 0 } b =
        jsComparator p { r with pricePerServing := none } b ∧
      jsComparator p b { r with pricePerServing := some 0 } =
        jsComparator p b { r with pricePerServing := none } ∧
      jsComparator p { r with readyInMinutes := some 0 } b =
        jsComparator p { r with readyInMinutes := none } b ∧
      jsComparator p b { r with readyInMinutes := some 0 } =
        jsComparator p b { r with readyInMinutes := none }) ∧
    (∀ (pf : Option PriorityFactors) (l : List Recipe),
      ((sortRecipesByPreferences l (some ⟨"price", "asc", pf⟩)).Pairwise fun a b =>
        priceKey a = ⊤ → priceKey b = ⊤) ∧
      ((sortRecipesByPreferences l (some ⟨"time", "asc", pf⟩)).Pairwise fun a b =>
        timeKey a = ⊤ → timeKey b = ⊤)) ∧
    (∀ (p : Preferences) (r : Recipe),
      calculateScore p { r with pricePerServing := some 0 } =
        calculateScore p { r with pricePerServing := none } ∧
      calculateScore p { r with readyInMinutes := some 0 } =
        calculateScore p { r with readyInMinutes := none }) := by
  refine ⟨fun r => ⟨(priceOrInf_update_zero r).1, (priceOrInf_update_zero r).2,
      (timeOrInf_update_zero r).1, (timeOrInf_update_zero r).2⟩,
    fun p r b => ⟨(jsComparator_price_update_zero p r b).1,
      (jsComparator_price_update_zero p r b).2,
      (jsComparator_time_update_zero p r b).1,
      (jsComparator_time_update_zero p r b).2⟩,
    fun pf l => ⟨?_, ?_⟩,
    fun p r => ⟨calculateScore_price_update_zero p r, calculateScore_time_update_zero p r⟩⟩
  · exact (pairwise_sorted_price_asc pf l).imp fun hab ht => top_le_iff.mp (ht ▸ hab)
  · exact (pairwise_sorted_time_asc pf l).imp fun hab ht => top_le_iff.mp (ht ▸ hab)

/-- C1 (spec-modelled): when the deduplicated locally-filtered matches already
cover the requested `number`, `searchWithFallback` issues zero external-API
requests and returns exactly `number` recipes; and whenever it does consult
the external API, it issues exactly one request sized by the shortfall
(`max(max(needed*2, needed), 5)` with `needed = number - have`), never by the
whole request. -/
theorem c1_local_first_shortfall (passesFilter : Recipe → Bool)
    (localStore : ℕ → List Recipe) (apiSearch : ℕ → List Recipe)
    (resolveDetails : List Recipe → List Recipe) (number : ℕ) :
    let localMatches := dedupById ((localStore (min (number * 3) 90)).filter passesFilter)
    (number ≤ localMatches.length →
      (searchWithFallback passesFilter localStore apiSearch resolveDetails number).2 = [] ∧
      (searchWithFallback passesFilter localStore apiSearch resolveDetails number).1.length =
        number) ∧
    (localMatches.length < number →
      (searchWithFallback passesFilter localStore apiSearch resolveDetails number).2 =
        [max (max ((number - localMatches.length) * 2) (number - localMatches.length)) 5]) := by
  intro localMatches
  unfold searchWithFallback
  constructor
  · intro hge
    rw [if_pos hge]
    exact ⟨rfl, by rw [List.length_take]; exact min_eq_left hge⟩
  · intro hlt
    rw [if_neg (not_le.mpr hlt)]

/-- C1 at a concrete input: a request for 5 against a local store pre-seeded
with 5 matching recipes issues no external request and returns exactly 5. -/
theorem c1_witness :
    5 ≤ (dedupById (((fun _ => fiveLocalRecipes) (min (5 * 3) 90) : List Recipe).filter
        fun _ => true)).length ∧
    (searchWithFallback (fun _ => true) (fun _ => fiveLocalRecipes) (fun _ => [])
        (fun l => l) 5).2 = [] ∧
    (searchWithFallback (fun _ => true) (fun _ => fiveLocalRecipes) (fun _ => [])
        (fun l => l) 5).1.length = 5 :=
  ⟨by decide,
    (c1_local_first_shortfall (fun _ => true) (fun _ => fiveLocalRecipes) (fun _ => [])
        (fun l => l) 5).1 (by decide)⟩

/-- C8: two recipes each contributing one ingredient whose resolved name
trims/lowercases to the same key merge into exactly one grocery entry whose
amount is the sum of the two amounts and whose `recipes` list holds both
contributing titles. -/
theorem c8_grocery_merge (t1 t2 : String) (i1 i2 : Ingredient)
    (h1 : resolvedIngredientName i1 ≠ "")
    (h2 : resolvedIngredientName i2 ≠ "")
    (hkey : jsToLower (resolvedIngredientName i1) = jsToLower (resolvedIngredientName i2)) :
    (buildGroceryList [groceryRecipe t1 [i1], groceryRecipe t2 [i2]]).groceryList.length = 1 ∧
    (buildGroceryList [groceryRecipe t1 [i1], groceryRecipe t2 [i2]]).groceryList.map
      GroceryEntry.amount = [i1.amount + i2.amount] ∧
    (buildGroceryList [groceryRecipe t1 [i1], groceryRecipe t2 [i2]]).groceryList.map
      GroceryEntry.recipes = [[t1, t2]] := by
  simp only [buildGroceryList, groceryRecipe, List.foldl_cons, List.foldl_nil]
  simp only [groceryStep, if_neg h1, if_neg h2, hkey, assocGet, assocSet,
    eq_self_iff_true, if_true, List.map_cons, List.map_nil, List.insertionSort,
    List.orderedInsert]
  refine ⟨?_, ?_, ?_⟩ <;> split <;> simp

/-- C8 at a concrete input: "Onion" with amounts 2 and 3 from two recipes
yields one entry with amount `2 + 3` and two contributing titles. -/
theorem c8_witness :
    resolvedIngredientName (onionIngredient 2) ≠ "" ∧
    resolvedIngredientName (onionIngredient 3) ≠ "" ∧
    jsToLower (resolvedIngredientName (onionIngredient 2)) =
      jsToLower (resolvedIngredientName (onionIngredient 3)) ∧
    ((buildGroceryList [groceryRecipe "Soup" [onionIngredient 2],
        groceryRecipe "Stew" [onionIngredient 3]]).groceryList.length = 1 ∧
      (buildGroceryList [groceryRecipe "Soup" [onionIngredient 2],
        groceryRecipe "Stew" [onionIngredient 3]]).groceryList.map
        GroceryEntry.amount = [(onionIngredient 2).amount + (onionIngredient 3).amount] ∧
      (buildGroceryList [groceryRecipe "Soup" [onionIngredient 2],
        groceryRecipe "Stew" [onionIngredient 3]]).groceryList.map
        GroceryEntry.recipes = [["Soup", "Stew"]]) :=
  ⟨by decide, by decide, by decide,
    c8_grocery_merge "Soup" "Stew" (onionIngredient 2) (onionIngredient 3)
      (by decide) (by decide) (by decide)⟩
